import Mathlib

/-!
Verification of the per-timestep control loop of the Viscoelastic3D repository
(`simulationCases/dropAtomisation.c` and `testCases/dropImpact.c`).

The two C files are Basilisk configuration scripts.  The control logic they
contain (checkpoint naming, run-log writing, the kinetic-energy diagnostics and
the termination monitor, and the adaptive-refinement trigger) is embedded
shallowly below.  Real-valued quantities that the code manipulates as `double`
are modelled as exact rationals (`ℚ`) where the computation is pure arithmetic
and comparisons, and as reals (`ℝ`) where `π` enters (the axisymmetric energy
measure).  The designated rank (`pid() == 0`) is the worker modelled here; all
file side effects in the source are guarded by `pid() == 0` and the energy is
globally reduced before any of the logic below runs.
-/

namespace VE

/-! ## Checkpoint filename formatting

`event writingFiles (t = 0; t += tsnap; t <= tmax)` executes
`sprintf(nameOut, "intermediate/snapshot-%5.4f", t); dump(file=nameOut);`
in both cases, with `tsnap = 0.1`.  The scheduled times are the exact grid
points `t = k/10`; `"%5.4f"` prints the integer part without leading zeros
followed by exactly four fractional digits (the width 5 is always exceeded,
so it never pads).  `snapName k` below is that filename for `t = k/10`. -/

def digitChar (d : ℕ) : Char := Char.ofNat (48 + d)

/-- Decimal digits of `n`, most significant first, no leading zeros
(`"0"` for `0`), exactly as `printf` renders the integer part.  The first
argument is structural fuel; `natRepr` supplies enough of it. -/
def reprAux : ℕ → ℕ → List Char
  | 0, _ => []
  | fuel + 1, n => if n < 10 then [digitChar n] else reprAux fuel (n / 10) ++ [digitChar (n % 10)]

def natRepr (n : ℕ) : List Char := reprAux (n + 1) n

/-- Four zero-padded decimal digits of `m < 10000`: the fractional field of
`"%5.4f"`. -/
def pad4 (m : ℕ) : List Char :=
  [digitChar (m / 1000 % 10), digitChar (m / 100 % 10), digitChar (m / 10 % 10), digitChar (m % 10)]

/-- Characters printed by `"%5.4f"` for the time value `k/10`:
integer part `k / 10`, then `'.'`, then four fractional digits, which for a
multiple of `1/10` are `(k % 10) * 1000` zero-padded. -/
def fmtChars (k : ℕ) : List Char := natRepr (k / 10) ++ '.' :: pad4 (k % 10 * 1000)

/-- Archival checkpoint filename written by `writingFiles` at scheduled time
`t = k/10`: `sprintf(nameOut, "intermediate/snapshot-%5.4f", t)`. -/
def snapName (k : ℕ) : String := String.mk ("intermediate/snapshot-".data ++ fmtChars k)

/-- Lexicographic order on filenames.  `String`'s own `<` is by definition the
lexicographic order on the underlying character list (`s₁ < s₂ ↔ s₁.data < s₂.data`);
we state it directly on the character lists so that it is kernel-decidable. -/
def lexLt (s₁ s₂ : String) : Prop := s₁.data < s₂.data

instance (s₁ s₂ : String) : Decidable (lexLt s₁ s₂) :=
  inferInstanceAs (Decidable (s₁.data < s₂.data))

example : snapName 1 = "intermediate/snapshot-0.1000" := by decide
example : snapName 100 = "intermediate/snapshot-10.0000" := by decide
example : snapName 2000 = "intermediate/snapshot-200.0000" := by decide
example : lexLt (snapName 100) (snapName 99) := by decide
example : ∀ k2, k2 ≤ 30 → ∀ k1, k1 < k2 → lexLt (snapName k1) (snapName k2) := by decide

/-! ### Injectivity of the filename map

Reading the decimal number back out of the formatted characters recovers
`1000 * k`, so distinct scheduled times always get distinct filenames. -/

def decodeStep (a : ℕ) (c : Char) : ℕ := if c = '.' then a else 10 * a + (c.toNat - 48)

lemma digitChar_toNat : ∀ d, d < 10 → (digitChar d).toNat = 48 + d := by decide

lemma digitChar_ne_dot : ∀ d, d < 10 → digitChar d ≠ '.' := by decide

lemma decodeStep_digit (a d : ℕ) (hd : d < 10) : decodeStep a (digitChar d) = 10 * a + d := by
  unfold decodeStep
  rw [if_neg (digitChar_ne_dot d hd), digitChar_toNat d hd]
  omega

lemma decodeStep_dot (a : ℕ) : decodeStep a '.' = a := by
  unfold decodeStep
  rw [if_pos rfl]

lemma foldl_reprAux (fuel : ℕ) : ∀ n a, n < fuel →
    (reprAux fuel n).foldl decodeStep a = a * 10 ^ (reprAux fuel n).length + n := by
  induction fuel with
  | zero => intro n a h; omega
  | succ fuel ih =>
    intro n a h
    by_cases h10 : n < 10
    · rw [reprAux, if_pos h10]
      simp only [List.foldl_cons, List.foldl_nil, List.length_cons, List.length_nil]
      rw [decodeStep_digit a n h10]
      ring
    · have hn0 : 0 < n := by omega
      have hdiv : n / 10 < fuel := by
        have := Nat.div_lt_self hn0 (by norm_num : (1:ℕ) < 10)
        omega
      rw [reprAux, if_neg h10]
      rw [List.foldl_append, ih (n / 10) a hdiv, List.length_append]
      simp only [List.foldl_cons, List.foldl_nil, List.length_cons, List.length_nil]
      rw [decodeStep_digit _ _ (Nat.mod_lt n (by norm_num))]
      rw [pow_succ, ← mul_assoc]
      generalize a * 10 ^ (reprAux fuel (n / 10)).length = q
      omega

lemma foldl_natRepr (n a : ℕ) :
    (natRepr n).foldl decodeStep a = a * 10 ^ (natRepr n).length + n :=
  foldl_reprAux (n + 1) n a (Nat.lt_succ_self n)

lemma foldl_pad4 (m a : ℕ) (hm : m < 10000) :
    (pad4 m).foldl decodeStep a = a * 10000 + m := by
  unfold pad4
  simp only [List.foldl_cons, List.foldl_nil]
  rw [decodeStep_digit _ _ (Nat.mod_lt _ (by norm_num)),
      decodeStep_digit _ _ (Nat.mod_lt _ (by norm_num)),
      decodeStep_digit _ _ (Nat.mod_lt _ (by norm_num)),
      decodeStep_digit _ _ (Nat.mod_lt _ (by norm_num))]
  omega

lemma decode_fmtChars (k : ℕ) : (fmtChars k).foldl decodeStep 0 = 1000 * k := by
  unfold fmtChars
  rw [List.foldl_append, foldl_natRepr, List.foldl_cons, decodeStep_dot,
      foldl_pad4 _ _ (by omega)]
  simp only [zero_mul, zero_add]
  omega

lemma fmtChars_injective (k1 k2 : ℕ) (h : fmtChars k1 = fmtChars k2) : k1 = k2 := by
  have h2 := congrArg (List.foldl decodeStep 0) h
  rw [decode_fmtChars, decode_fmtChars] at h2
  omega

lemma snapName_injective (k1 k2 : ℕ) (h : snapName k1 = snapName k2) : k1 = k2 := by
  unfold snapName at h
  have h2 : "intermediate/snapshot-".data ++ fmtChars k1
      = "intermediate/snapshot-".data ++ fmtChars k2 := congrArg String.data h
  exact fmtChars_injective k1 k2 (List.append_cancel_left h2)

/-! ## Case parameters

Constants set in `main()` of each case file (exact decimal values, embedded
as rationals). -/

namespace atomisation

def MAXlevel : ℕ := 7
def RhoInOut : ℚ := 830
def De : ℚ := 0
def Ec : ℚ := 0
def We : ℚ := 15000
def Oh : ℚ := 3e-3
def Oha : ℚ := 0.018 * Oh
def tmax : ℚ := 200
def tsnap : ℚ := 0.1
def fErr : ℚ := 1e-2
def KErr : ℚ := 1e-4
def VelErr : ℚ := 1e-2
def rho1 : ℚ := RhoInOut
def rho2 : ℚ := 1

end atomisation

namespace impact

def MAXlevel : ℕ := 6
def tmax : ℚ := 3
def We : ℚ := 5
def Oh : ℚ := 1e-2
def De : ℚ := 1e-2
def Ec : ℚ := 1e-2
def Oha : ℚ := 1e-2 * Oh
def tsnap : ℚ := 1e-1
def fErr : ℚ := 1e-3
def KErr : ℚ := 1e-6
def VelErr : ℚ := 1e-2
def rho1 : ℚ := 1
def rho2 : ℚ := 1e-3

end impact

/-! ## The `logWriting` event: diagnostics and the termination monitor

`event logWriting (i++)` in both files: globally reduce the kinetic energy,
then (on rank 0) open the run log (`"w"` at `i == 0`, `"a"` afterwards),
write the header and column-title lines at `i == 0`, append the per-step
record, close; `assert(ke > -1e-10)`; and for `i > 1e1` evaluate the
blow-up/collapse bounds, on violation appending the reason to the `"log"`
file, dumping the restart file, and returning 1 (which stops the Basilisk
event loop).  The model below is the rank-0 trace of file-system events plus
the step outcome; `return 1` from the event is `Outcome.halt`, a failed
`assert` is `Outcome.assertFail` (process abort). -/

inductive Mode
  | write
  | append
deriving DecidableEq

inductive Reason
  | blewUp
  | tooSmall
deriving DecidableEq

/-- Spec's `TerminationDecision` (the `STOP_NORMAL` case is the external
`t = end` event, not decided by this monitor). -/
inductive Decision
  | CONTINUE
  | STOP_ABORT (r : Reason)
deriving DecidableEq

inductive Line
  | header (items : List (String × ℚ))
  | columns (labels : List String)
  | record (i : ℕ) (dt t ke : ℚ)
  | message (r : Reason)
deriving DecidableEq

inductive Ev
  | fopen (name : String) (mode : Mode)
  | fwrite (name : String) (l : Line)
  | fclose (name : String)
  | dump (name : String)
deriving DecidableEq

inductive Outcome
  | ok
  | halt
  | assertFail
deriving DecidableEq

/-- Per-case configuration of the monitor: file names, header items and the
energy bounds are injected parameters, mirroring the literals of each case
file. -/
structure CaseConfig where
  runLog : String
  errLog : String
  headerItems : List (String × ℚ)
  upper : ℚ
  lower : ℚ
  dumpName : String
deriving DecidableEq

/-- The termination predicate of `logWriting`:
`if (i > 1e1 ...) { if (ke > upper || ke < lower) { message = (ke > upper) ?
"blew up" : "too small"; ... } }`. -/
def monitorDecision (upper lower : ℚ) (i : ℕ) (ke : ℚ) : Decision :=
  if 10 < i then
    if upper < ke ∨ ke < lower then
      .STOP_ABORT (if upper < ke then .blewUp else .tooSmall)
    else .CONTINUE
  else .CONTINUE

structure StepIn where
  i : ℕ
  dt : ℚ
  t : ℚ
  ke : ℚ
  openOk : Bool
deriving DecidableEq

structure StepOut where
  events : List Ev
  outcome : Outcome
deriving DecidableEq

/-- Run-log writes of one non-failing step: open (mode `"w"` iff `i == 0`),
at `i == 0` the header line and the `"i dt t ke rM"` column-title line, the
per-step record `"%d %g %g %g", i, dt, t, ke`, close. -/
def stepRunLogEvents (cfg : CaseConfig) (s : StepIn) : List Ev :=
  Ev.fopen cfg.runLog (if s.i = 0 then Mode.write else Mode.append) ::
    ((if s.i = 0 then
        [Ev.fwrite cfg.runLog (.header cfg.headerItems),
         Ev.fwrite cfg.runLog (.columns ["i", "dt", "t", "ke", "rM"])]
      else []) ++
     [Ev.fwrite cfg.runLog (.record s.i s.dt s.t s.ke), Ev.fclose cfg.runLog])

/-- Side effects of the abort path: `fopen("log", "a")`, write the reason
message, close, `dump(file = dumpFile)`. -/
def abortEvents (cfg : CaseConfig) (r : Reason) : List Ev :=
  [.fopen cfg.errLog .append, .fwrite cfg.errLog (.message r),
   .fclose cfg.errLog, .dump cfg.dumpName]

/-- Rank-0 body of `event logWriting (i++)`, common to both case files up to
the injected `CaseConfig`.  Mirrors the source order: open (mode `"w"` iff
`i == 0`), on open failure print an error and `return 1`; at `i == 0` write
the header and the `"i dt t ke rM"` column line; append the record line and
close; `assert(ke > -1e-10)`; then the gated blow-up/collapse check, whose
abort path appends the reason to the error log, dumps the restart file and
returns 1 (which stops the event loop). -/
def logWriting (cfg : CaseConfig) (s : StepIn) : StepOut :=
  if s.openOk = false then
    { events := [.fopen cfg.runLog (if s.i = 0 then Mode.write else Mode.append)],
      outcome := .halt }
  else if s.ke ≤ -1e-10 then
    { events := stepRunLogEvents cfg s, outcome := .assertFail }
  else
    match monitorDecision cfg.upper cfg.lower s.i s.ke with
    | .STOP_ABORT r =>
        { events := stepRunLogEvents cfg s ++ abortEvents cfg r, outcome := .halt }
    | .CONTINUE => { events := stepRunLogEvents cfg s, outcome := .ok }

/-- `dropAtomisation.c` configuration: run log `logFile = "log3D-scalar.dat"`
(the active `grid/octree.h`, non-`AXI`, non-`VANILLA` build), error log
`"log"`, header `"Level %d, Oh %2.1e, We %2.1e, Oha %2.1e, De %2.1e, Ec %2.1e"`,
bounds `1e6` / `1e-6`, restart file `"restart"`. -/
def dropAtomCfg : CaseConfig where
  runLog := "log3D-scalar.dat"
  errLog := "log"
  headerItems := [("Level", 7), ("Oh", atomisation.Oh), ("We", atomisation.We),
    ("Oha", atomisation.Oha), ("De", atomisation.De), ("Ec", atomisation.Ec)]
  upper := 1e6
  lower := 1e-6
  dumpName := "restart"

/-- `dropImpact.c` configuration: run log `"log"`, error log `"log"` (the
same file), header `"Level %d, Oh %2.1e, Oha %2.1e"`, bounds `1e2` / `1e-8`,
restart file `"dump"`. -/
def dropImpactCfg : CaseConfig where
  runLog := "log"
  errLog := "log"
  headerItems := [("Level", 6), ("Oh", impact.Oh), ("Oha", impact.Oha)]
  upper := 1e2
  lower := 1e-8
  dumpName := "dump"

example : (logWriting dropAtomCfg ⟨0, 1, 0, 1, true⟩).outcome = .ok := by
  norm_num [logWriting, monitorDecision, dropAtomCfg]
example : (logWriting dropAtomCfg ⟨11, 1, 1, 2e6, true⟩).outcome = .halt := by
  norm_num [logWriting, monitorDecision, dropAtomCfg]
example : (logWriting dropAtomCfg ⟨11, 1, 1, -1, true⟩).outcome = .assertFail := by
  norm_num [logWriting, monitorDecision, dropAtomCfg]

/-! ## The `adapt` event

`event adapt(i++)` in both files: allocate `KAPPA`, call
`curvature(f, KAPPA)`, then call `adapt_wavelet` once with the ordered
field/tolerance lists of each file, the configured `MAXlevel` and the
minimum-cells-per-block argument `4`. -/

inductive FieldId
  | f
  | kappa
  | ux
  | uy
  | uz
deriving DecidableEq

/-- Arguments of one `adapt_wavelet` invocation: the ordered (field,
tolerance) pairs, the maximum refinement level, and the minimum number of
cells per refinement block. -/
structure AdaptCall where
  pairs : List (FieldId × ℚ)
  maxLevel : ℕ
  minBlock : ℕ
deriving DecidableEq

inductive AdaptEv
  | computeCurvature (src tgt : FieldId)
  | adaptWavelet (call : AdaptCall)
deriving DecidableEq

/-- `dropAtomisation.c` (3D octree build):
`adapt_wavelet({f, KAPPA, u.x, u.y, u.z}, {fErr, KErr, VelErr, VelErr, VelErr},
MAXlevel, 4)`. -/
def atomAdaptCall : AdaptCall where
  pairs := [(.f, atomisation.fErr), (.kappa, atomisation.KErr),
    (.ux, atomisation.VelErr), (.uy, atomisation.VelErr), (.uz, atomisation.VelErr)]
  maxLevel := atomisation.MAXlevel
  minBlock := 4

/-- `dropImpact.c` (2D quadtree):
`adapt_wavelet({f, u.x, u.y, KAPPA}, {fErr, VelErr, VelErr, KErr}, MAXlevel, 4)`. -/
def impactAdaptCall : AdaptCall where
  pairs := [(.f, impact.fErr), (.ux, impact.VelErr),
    (.uy, impact.VelErr), (.kappa, impact.KErr)]
  maxLevel := impact.MAXlevel
  minBlock := 4

/-- The `adapt` event of `dropAtomisation.c`; it fires at every step
(`i++` cadence) and its body does not inspect `i` (no time gating). -/
def adaptAtom (_i : ℕ) : List AdaptEv :=
  [.computeCurvature .f .kappa, .adaptWavelet atomAdaptCall]

/-- The `adapt` event of `dropImpact.c`; same cadence and shape. -/
def adaptImpact (_i : ℕ) : List AdaptEv :=
  [.computeCurvature .f .kappa, .adaptWavelet impactAdaptCall]

def isWaveletCall : AdaptEv → Bool
  | .adaptWavelet _ => true
  | _ => false

/-! ## The kinetic-energy reduction

`dropAtomisation.c` (octree, `dimension == 3`):
`ke += (0.5*rho(f[])*(sq(u.x[]) + sq(u.y[]) + sq(u.z[])))*pow(Delta, dimension);`

`dropImpact.c` (quadtree, the axisymmetric measure written out by hand):
`ke += (2*pi*y)*(0.5*rho(f[])*(sq(u.x[]) + sq(u.y[])))*sq(Delta);`

`sq` is Basilisk's squaring macro and `rho(f)` is the two-phase closure.
A mesh cell is modelled by the values the loop body reads from it. -/

/-- Basilisk's `sq(x)` macro: `x*x`. -/
def sq {α : Type} [Mul α] (x : α) : α := x * x

/-- Basilisk's `clamp(x, lo, hi)` macro. -/
def clamp {α : Type} [LinearOrder α] (x lo hi : α) : α := max lo (min x hi)

/-- Modelled from the spec: the per-cell density supplied by the external
two-phase Field Accessor (the framework's `two-phase` closure
`rho(f) = clamp(f,0,1)*(rho1 - rho2) + rho2`; the framework header itself is
not part of this repository). -/
def rho {α : Type} [Mul α] [Add α] [Sub α] [LinearOrder α] [Zero α] [One α]
    (rho1 rho2 f : α) : α :=
  clamp f 0 1 * (rho1 - rho2) + rho2

/-- One octree cell as read by the 3D energy loop: volume fraction,
velocity components and the cell size `Delta`. -/
structure Cell3 where
  f : ℚ
  ux : ℚ
  uy : ℚ
  uz : ℚ
  delta : ℚ
deriving DecidableEq

/-- One quadtree cell as read by the 2D energy loop: volume fraction,
velocity components, the radial coordinate `y` and the cell size `Delta`.
Fields are reals because the loop body multiplies by `pi`. -/
structure Cell2 where
  f : ℝ
  ux : ℝ
  uy : ℝ
  y : ℝ
  delta : ℝ

/-- The `foreach (reduction(+:ke))` accumulation of `dropAtomisation.c`,
with `pow(Delta, dimension)` at `dimension = 3`. -/
def keAtom (rho1 rho2 : ℚ) (cells : List Cell3) : ℚ :=
  cells.foldl
    (fun ke c => ke + (0.5 * rho rho1 rho2 c.f * (sq c.ux + sq c.uy + sq c.uz)) * c.delta ^ 3)
    0

/-- The `foreach (reduction(+:ke))` accumulation of `dropImpact.c`. -/
noncomputable def keImpact (rho1 rho2 : ℝ) (cells : List Cell2) : ℝ :=
  cells.foldl
    (fun ke c => ke + (2 * Real.pi * c.y) * (0.5 * rho rho1 rho2 c.f * (sq c.ux + sq c.uy)) * sq c.delta)
    0

/-! Spec-side forms for the refinement comparison (C5): the per-cell energy
term `0.5 * density(cell) * |velocity(cell)|^2 * cellVolumeMeasure`, with
`cellVolumeMeasure = Δ^d` (`d = 3` for the octree case) and
`2π·y·Δ^2` for the axisymmetric measure. -/

def normSq3 (c : Cell3) : ℚ := sq c.ux + sq c.uy + sq c.uz

def cellMeasure3 (c : Cell3) : ℚ := c.delta ^ 3

noncomputable def normSq2 (c : Cell2) : ℝ := sq c.ux + sq c.uy

noncomputable def cellMeasureAxi (c : Cell2) : ℝ := 2 * Real.pi * c.y * sq c.delta

lemma foldl_add_eq_sum {M α : Type} [AddCommMonoid M] (g : α → M) (l : List α) :
    ∀ a : M, l.foldl (fun s c => s + g c) a = a + (l.map g).sum := by
  induction l with
  | nil => intro a; simp
  | cons x xs ih => intro a; simp [ih, add_assoc]

lemma rho_pos {α : Type} [LinearOrderedField α] {r1 r2 : α} (h1 : 0 < r1) (h2 : 0 < r2)
    (f : α) : 0 < rho r1 r2 f := by
  unfold rho clamp
  set c := max 0 (min f 1) with hc
  have hc0 : 0 ≤ c := le_max_left 0 _
  have hc1 : c ≤ 1 := max_le (by norm_num) (min_le_right f 1)
  rcases eq_or_lt_of_le hc0 with h | h
  · rw [← h]
    simpa using h2
  · have p1 : 0 < c * r1 := mul_pos h h1
    have p2 : 0 ≤ (1 - c) * r2 := mul_nonneg (by linarith) h2.le
    nlinarith

/-! ## Helper predicates and bookkeeping lemmas for the log model -/

def isHeaderWrite (cfg : CaseConfig) : Ev → Bool
  | .fwrite n (.header _) => n == cfg.runLog
  | _ => false

def isRecordWrite (cfg : CaseConfig) : Ev → Bool
  | .fwrite n (.record _ _ _ _) => n == cfg.runLog
  | _ => false

def isReasonWrite (cfg : CaseConfig) : Ev → Bool
  | .fwrite n (.message _) => n == cfg.errLog
  | _ => false

def isDump : Ev → Bool
  | .dump _ => true
  | _ => false

lemma countP_step_header (cfg : CaseConfig) (s : StepIn) :
    (stepRunLogEvents cfg s).countP (isHeaderWrite cfg) = if s.i = 0 then 1 else 0 := by
  by_cases h0 : s.i = 0 <;>
    simp [stepRunLogEvents, h0, List.countP_append, List.countP_cons, isHeaderWrite]

lemma countP_step_record (cfg : CaseConfig) (s : StepIn) :
    (stepRunLogEvents cfg s).countP (isRecordWrite cfg) = 1 := by
  by_cases h0 : s.i = 0 <;>
    simp [stepRunLogEvents, h0, List.countP_append, List.countP_cons, isRecordWrite]

lemma countP_step_reason (cfg : CaseConfig) (s : StepIn) :
    (stepRunLogEvents cfg s).countP (isReasonWrite cfg) = 0 := by
  by_cases h0 : s.i = 0 <;>
    simp [stepRunLogEvents, h0, List.countP_append, List.countP_cons, isReasonWrite]

lemma countP_step_dump (cfg : CaseConfig) (s : StepIn) :
    (stepRunLogEvents cfg s).countP isDump = 0 := by
  by_cases h0 : s.i = 0 <;>
    simp [stepRunLogEvents, h0, List.countP_append, List.countP_cons, isDump]

lemma countP_abort_header (cfg : CaseConfig) (r : Reason) :
    (abortEvents cfg r).countP (isHeaderWrite cfg) = 0 := by
  simp [abortEvents, List.countP_cons, isHeaderWrite]

lemma countP_abort_record (cfg : CaseConfig) (r : Reason) :
    (abortEvents cfg r).countP (isRecordWrite cfg) = 0 := by
  simp [abortEvents, List.countP_cons, isRecordWrite]

lemma countP_abort_reason (cfg : CaseConfig) (r : Reason) :
    (abortEvents cfg r).countP (isReasonWrite cfg) = 1 := by
  simp [abortEvents, List.countP_cons, isReasonWrite]

lemma countP_abort_dump (cfg : CaseConfig) (r : Reason) :
    (abortEvents cfg r).countP isDump = 1 := by
  simp [abortEvents, List.countP_cons, isDump]

/-- Branch analysis of `logWriting` for a step whose run-log open succeeds. -/
lemma logWriting_cases (cfg : CaseConfig) (s : StepIn) (hOpen : s.openOk = true) :
    (s.ke ≤ -1e-10 ∧
      logWriting cfg s = { events := stepRunLogEvents cfg s, outcome := .assertFail }) ∨
    (¬ s.ke ≤ -1e-10 ∧ ∃ r, monitorDecision cfg.upper cfg.lower s.i s.ke = .STOP_ABORT r ∧
      logWriting cfg s =
        { events := stepRunLogEvents cfg s ++ abortEvents cfg r, outcome := .halt }) ∨
    (¬ s.ke ≤ -1e-10 ∧ monitorDecision cfg.upper cfg.lower s.i s.ke = .CONTINUE ∧
      logWriting cfg s = { events := stepRunLogEvents cfg s, outcome := .ok }) := by
  unfold logWriting
  rw [hOpen]
  rw [if_neg (by simp : ¬ (true = false))]
  by_cases hke : s.ke ≤ -1e-10
  · exact Or.inl ⟨hke, by rw [if_pos hke]⟩
  · rw [if_neg hke]
    cases hd : monitorDecision cfg.upper cfg.lower s.i s.ke with
    | STOP_ABORT r => exact Or.inr (Or.inl ⟨hke, r, rfl, rfl⟩)
    | CONTINUE => exact Or.inr (Or.inr ⟨hke, rfl, rfl⟩)

lemma monitorDecision_eq (U L : ℚ) (hLU : L ≤ U) (i : ℕ) (hi : 10 < i) (ke : ℚ) :
    (U < ke → monitorDecision U L i ke = .STOP_ABORT .blewUp) ∧
    (ke < L → monitorDecision U L i ke = .STOP_ABORT .tooSmall) ∧
    (L ≤ ke → ke ≤ U → monitorDecision U L i ke = .CONTINUE) := by
  refine ⟨?_, ?_, ?_⟩
  · intro h
    unfold monitorDecision
    rw [if_pos hi, if_pos (Or.inl h), if_pos h]
  · intro h
    have hnU : ¬ U < ke := not_lt.mpr (le_trans (le_of_lt h) hLU)
    unfold monitorDecision
    rw [if_pos hi, if_pos (Or.inr h), if_neg hnU]
  · intro hL hU
    unfold monitorDecision
    rw [if_pos hi, if_neg (by push_neg; exact ⟨hU, hL⟩)]

/-! ## The claims -/

/-- Claim C1: for every step with index `i > 10`, if the globally reduced
kinetic energy exceeds the configured upper bound the monitor decides
STOP_ABORT with the "blew up" reason; below the configured lower bound it
decides STOP_ABORT with the "too small" reason; the bounds are the injected
per-case parameters (`1e6`/`1e-6` for drop atomisation, `1e2`/`1e-8` for
drop impact); for in-bounds energy the decision is CONTINUE. -/
theorem C1_monitor_bounds (i : ℕ) (hi : 10 < i) (ke : ℚ) :
    (dropAtomCfg.upper = 1e6 ∧ dropAtomCfg.lower = 1e-6 ∧
      dropImpactCfg.upper = 1e2 ∧ dropImpactCfg.lower = 1e-8) ∧
    (1e6 < ke → monitorDecision dropAtomCfg.upper dropAtomCfg.lower i ke
        = .STOP_ABORT .blewUp) ∧
    (ke < 1e-6 → monitorDecision dropAtomCfg.upper dropAtomCfg.lower i ke
        = .STOP_ABORT .tooSmall) ∧
    (1e-6 ≤ ke → ke ≤ 1e6 → monitorDecision dropAtomCfg.upper dropAtomCfg.lower i ke
        = .CONTINUE) ∧
    (1e2 < ke → monitorDecision dropImpactCfg.upper dropImpactCfg.lower i ke
        = .STOP_ABORT .blewUp) ∧
    (ke < 1e-8 → monitorDecision dropImpactCfg.upper dropImpactCfg.lower i ke
        = .STOP_ABORT .tooSmall) ∧
    (1e-8 ≤ ke → ke ≤ 1e2 → monitorDecision dropImpactCfg.upper dropImpactCfg.lower i ke
        = .CONTINUE) := by
  have hA := monitorDecision_eq 1e6 1e-6 (by norm_num) i hi ke
  have hI := monitorDecision_eq 1e2 1e-8 (by norm_num) i hi ke
  exact ⟨⟨rfl, rfl, rfl, rfl⟩, hA.1, hA.2.1, hA.2.2, hI.1, hI.2.1, hI.2.2⟩

/-- Witness for C1 at concrete inputs: step 11, energy `2e6` blows up the
atomisation monitor, `1e-9` collapses the impact monitor, `1` continues. -/
theorem C1_monitor_bounds_witness :
    monitorDecision dropAtomCfg.upper dropAtomCfg.lower 11 2000000 = .STOP_ABORT .blewUp ∧
    monitorDecision dropImpactCfg.upper dropImpactCfg.lower 11 (1 / 1000000000)
      = .STOP_ABORT .tooSmall ∧
    monitorDecision dropAtomCfg.upper dropAtomCfg.lower 11 1 = .CONTINUE :=
  ⟨(C1_monitor_bounds 11 (by norm_num) 2000000).2.1 (by norm_num),
   (C1_monitor_bounds 11 (by norm_num) (1 / 1000000000)).2.2.2.2.2.1 (by norm_num),
   (C1_monitor_bounds 11 (by norm_num) 1).2.2.2.1 (by norm_num) (by norm_num)⟩

/-- Claim C2: at every step (any index, any configuration) with a successful
run-log open, the outcome is the fatal assertion path exactly when
`ke ≤ -1e-10` (`assert(ke > -1e-10)` fails), and that path is distinct from
both the graceful halt and the normal continue outcomes. -/
theorem C2_assert_unconditional (cfg : CaseConfig) (s : StepIn) (hOpen : s.openOk = true) :
    ((logWriting cfg s).outcome = .assertFail ↔ s.ke ≤ -1e-10) ∧
    Outcome.assertFail ≠ Outcome.halt ∧ Outcome.assertFail ≠ Outcome.ok := by
  refine ⟨?_, by simp, by simp⟩
  rcases logWriting_cases cfg s hOpen with ⟨hke, heq⟩ | ⟨hke, r, _, heq⟩ | ⟨hke, _, heq⟩ <;>
    rw [heq] <;> simp [hke]

/-- Witness for C2: at step 3 (well inside the grace period) with `ke = -1`,
the atomisation step takes the assertion-failure path. -/
theorem C2_assert_unconditional_witness :
    (logWriting dropAtomCfg ⟨3, 1, 1, -1, true⟩).outcome = .assertFail ∧
    ((-1 : ℚ) ≤ -1e-10) :=
  ⟨((C2_assert_unconditional dropAtomCfg ⟨3, 1, 1, -1, true⟩ rfl).1).mpr (by norm_num),
   by norm_num⟩

/-- Claim C3: for every step with index `i ≤ 10` the monitor never decides
STOP_ABORT, whatever the energy (the gate `i > 1e1` is exclusive); with a
successful open and a passing assertion such a step ends in the normal
continue outcome. -/
theorem C3_grace_period (i : ℕ) (hi : i ≤ 10) :
    (∀ U L ke : ℚ, monitorDecision U L i ke = .CONTINUE) ∧
    (∀ (cfg : CaseConfig) (s : StepIn), s.i = i → s.openOk = true → ¬ s.ke ≤ -1e-10 →
      (logWriting cfg s).outcome = .ok) := by
  have hmon : ∀ U L ke : ℚ, monitorDecision U L i ke = .CONTINUE := by
    intro U L ke
    unfold monitorDecision
    rw [if_neg (by omega)]
  refine ⟨hmon, ?_⟩
  intro cfg s hsi hOpen hke
  rcases logWriting_cases cfg s hOpen with ⟨hke2, _⟩ | ⟨_, r, hd, _⟩ | ⟨_, _, heq⟩
  · exact absurd hke2 hke
  · rw [hsi, hmon] at hd
    exact absurd hd (by simp)
  · rw [heq]

/-- Witness for C3: step 10 with the wildly out-of-bounds energy `2e6`
continues in the atomisation case. -/
theorem C3_grace_period_witness :
    monitorDecision dropAtomCfg.upper dropAtomCfg.lower 10 2000000 = .CONTINUE ∧
    (logWriting dropAtomCfg ⟨10, 1, 1, 2000000, true⟩).outcome = .ok :=
  ⟨(C3_grace_period 10 le_rfl).1 dropAtomCfg.upper dropAtomCfg.lower 2000000,
   (C3_grace_period 10 le_rfl).2 dropAtomCfg ⟨10, 1, 1, 2000000, true⟩ rfl rfl (by norm_num)⟩

/-- Counterexample to C4 as stated: the claim requires the abort reason to go
to an error log distinct from the per-step run log, but in the drop-impact
case both are the file `"log"`; on a concrete abort step the reason line is
written to the run log's own file. -/
theorem C4_counterexample :
    dropImpactCfg.errLog = dropImpactCfg.runLog ∧
    dropImpactCfg.errLog = "log" ∧
    Ev.fwrite dropImpactCfg.runLog (.message .blewUp)
      ∈ (logWriting dropImpactCfg ⟨11, 1, 1, 200, true⟩).events := by
  refine ⟨rfl, rfl, ?_⟩
  norm_num [logWriting, monitorDecision, stepRunLogEvents, abortEvents, dropImpactCfg]

/-- Claim C4 as amended: on every STOP_ABORT decision the step appends the
abort reason exactly once to the persistent error log `"log"` opened in
append mode (distinct from the run log in the drop-atomisation case but the
very same file in the drop-impact case), produces exactly one additional
checkpoint write of the restart file beyond the regular schedule, and
signals the driver to halt. -/
theorem C4_abort_effects (cfg : CaseConfig) (s : StepIn) (r : Reason)
    (hOpen : s.openOk = true) (hassert : ¬ s.ke ≤ -1e-10)
    (hd : monitorDecision cfg.upper cfg.lower s.i s.ke = .STOP_ABORT r) :
    (logWriting cfg s).events = stepRunLogEvents cfg s ++
      [.fopen cfg.errLog .append, .fwrite cfg.errLog (.message r),
       .fclose cfg.errLog, .dump cfg.dumpName] ∧
    (logWriting cfg s).events.countP (isReasonWrite cfg) = 1 ∧
    (logWriting cfg s).events.countP isDump = 1 ∧
    (logWriting cfg s).outcome = .halt ∧
    dropAtomCfg.errLog = "log" ∧ dropImpactCfg.errLog = "log" ∧
    dropAtomCfg.errLog ≠ dropAtomCfg.runLog ∧ dropImpactCfg.errLog = dropImpactCfg.runLog := by
  rcases logWriting_cases cfg s hOpen with ⟨hke, _⟩ | ⟨_, r', hd', heq⟩ | ⟨_, hcont, _⟩
  · exact absurd hke hassert
  · have hr : r' = r := by
      rw [hd] at hd'
      exact (Decision.STOP_ABORT.injEq r' r).mp hd'.symm
    subst hr
    rw [heq]
    refine ⟨rfl, ?_, ?_, rfl, rfl, rfl, by decide, rfl⟩
    · rw [List.countP_append, countP_step_reason, countP_abort_reason]
    · rw [List.countP_append, countP_step_dump, countP_abort_dump]
  · rw [hcont] at hd
    exact absurd hd (by simp)

/-- Witness for C4 at a concrete abort: drop-impact step 11 with `ke = 200`
(above the `1e2` bound). -/
theorem C4_abort_effects_witness :
    (logWriting dropImpactCfg ⟨11, 1, 1, 200, true⟩).events.countP (isReasonWrite dropImpactCfg)
        = 1 ∧
    (logWriting dropImpactCfg ⟨11, 1, 1, 200, true⟩).events.countP isDump = 1 ∧
    (logWriting dropImpactCfg ⟨11, 1, 1, 200, true⟩).outcome = .halt := by
  have T := C4_abort_effects dropImpactCfg ⟨11, 1, 1, 200, true⟩ .blewUp rfl (by norm_num)
    (by norm_num [monitorDecision, dropImpactCfg])
  exact ⟨T.2.1, T.2.2.1, T.2.2.2.1⟩

lemma keAtom_eq_sum (r1 r2 : ℚ) (l : List Cell3) :
    keAtom r1 r2 l
      = (l.map (fun c => 0.5 * rho r1 r2 c.f * normSq3 c * cellMeasure3 c)).sum := by
  unfold keAtom
  rw [foldl_add_eq_sum, zero_add]
  have hfun : (fun (c : Cell3) =>
      (0.5 * rho r1 r2 c.f * (sq c.ux + sq c.uy + sq c.uz)) * c.delta ^ 3)
      = fun c => 0.5 * rho r1 r2 c.f * normSq3 c * cellMeasure3 c := by
    funext c
    unfold normSq3 cellMeasure3
    ring
  rw [hfun]

lemma keImpact_eq_sum (r1 r2 : ℝ) (l : List Cell2) :
    keImpact r1 r2 l
      = (l.map (fun c => 0.5 * rho r1 r2 c.f * normSq2 c * cellMeasureAxi c)).sum := by
  unfold keImpact
  rw [foldl_add_eq_sum, zero_add]
  have hfun : (fun (c : Cell2) =>
      (2 * Real.pi * c.y) * (0.5 * rho r1 r2 c.f * (sq c.ux + sq c.uy)) * sq c.delta)
      = fun c => 0.5 * rho r1 r2 c.f * normSq2 c * cellMeasureAxi c := by
    funext c
    unfold normSq2 cellMeasureAxi sq
    ring
  rw [hfun]

/-- Claim C5: the per-step kinetic energy computed by the `foreach` reduction
equals the order-independent sum over all mesh cells of
`0.5 * density(cell) * |velocity(cell)|^2 * cellVolumeMeasure`, where the
measure is `Δ^d` (`d = 3`, octree) for drop atomisation and `2π·y·Δ^2` (the
axisymmetric measure) for drop impact; any reordering of the cells yields the
same value. -/
theorem C5_energy_sum (r1 r2 : ℚ) (cellsA cellsA' : List Cell3) (hA : cellsA.Perm cellsA')
    (R1 R2 : ℝ) (cellsI cellsI' : List Cell2) (hI : cellsI.Perm cellsI') :
    keAtom r1 r2 cellsA
        = (cellsA.map (fun c => 0.5 * rho r1 r2 c.f * normSq3 c * cellMeasure3 c)).sum ∧
    keAtom r1 r2 cellsA = keAtom r1 r2 cellsA' ∧
    keImpact R1 R2 cellsI
        = (cellsI.map (fun c => 0.5 * rho R1 R2 c.f * normSq2 c * cellMeasureAxi c)).sum ∧
    keImpact R1 R2 cellsI = keImpact R1 R2 cellsI' := by
  refine ⟨keAtom_eq_sum r1 r2 cellsA, ?_, keImpact_eq_sum R1 R2 cellsI, ?_⟩
  · rw [keAtom_eq_sum r1 r2 cellsA, keAtom_eq_sum r1 r2 cellsA']
    exact (hA.map _).sum_eq
  · rw [keImpact_eq_sum R1 R2 cellsI, keImpact_eq_sum R1 R2 cellsI']
    exact (hI.map _).sum_eq

/-- Witness for C5: a two-cell atomisation mesh and its transposition give
the same energy, and a one-cell impact mesh matches the spec-side sum. -/
theorem C5_energy_sum_witness :
    keAtom 830 1 [⟨1, 1, 0, 0, 1⟩, ⟨0, 2, 0, 0, 1⟩]
        = keAtom 830 1 [⟨0, 2, 0, 0, 1⟩, ⟨1, 1, 0, 0, 1⟩] ∧
    keImpact 1 (1 / 1000) [⟨1, 1, 0, 1, 1⟩]
        = (([⟨1, 1, 0, 1, 1⟩] : List Cell2).map
            (fun c => 0.5 * rho 1 (1 / 1000) c.f * normSq2 c * cellMeasureAxi c)).sum := by
  have T := C5_energy_sum 830 1 [⟨1, 1, 0, 0, 1⟩, ⟨0, 2, 0, 0, 1⟩]
    [⟨0, 2, 0, 0, 1⟩, ⟨1, 1, 0, 0, 1⟩] (List.Perm.swap _ _ [])
    1 (1 / 1000) [⟨1, 1, 0, 1, 1⟩] [⟨1, 1, 0, 1, 1⟩] (List.Perm.refl _)
  exact ⟨T.2.1, T.2.2.1⟩

/-- Counterexample to C6 as stated: the scheduled atomisation times `t = 9.9`
and `t = 10.0` (consecutive grid points, `≤ tmax = 200`) produce filenames in
the wrong lexicographic order, because the integer part grows a digit. -/
theorem C6_counterexample :
    ¬ lexLt (snapName 99) (snapName 100) ∧
    lexLt (snapName 100) (snapName 99) ∧
    snapName 99 = "intermediate/snapshot-9.9000" ∧
    snapName 100 = "intermediate/snapshot-10.0000" ∧
    (99 : ℕ) < 100 ∧ (100 : ℕ) ≤ 2000 := by
  decide

/-- Claim C6 as amended: every archival checkpoint filename is the
deterministic function `intermediate/snapshot-<t with 4 fractional digits>`
of the scheduled time `t = k/10`; filenames for distinct scheduled times
never collide (for any two grid points, in particular any two times differing
by at least the interval `0.1`); and over the drop-impact schedule
(`tmax = 3.0`, so `k ≤ 30`, where the integer part keeps a single digit)
they are strictly increasing in lexicographic order.  Strict lexicographic
increase fails over the drop-atomisation schedule when the integer part
gains a digit (`t = 9.9` vs `t = 10.0`). -/
theorem C6_snapshot_names :
    (∀ k1 k2 : ℕ, snapName k1 = snapName k2 → k1 = k2) ∧
    (∀ k2, k2 ≤ 30 → ∀ k1, k1 < k2 → lexLt (snapName k1) (snapName k2)) ∧
    snapName 1 = "intermediate/snapshot-0.1000" ∧
    snapName 2000 = "intermediate/snapshot-200.0000" :=
  ⟨snapName_injective, by decide, by decide, by decide⟩

/-- Witness for C6 at concrete schedule points: `t = 0.3` sorts before
`t = 0.7` in the impact schedule, and equal filenames force equal times. -/
theorem C6_snapshot_names_witness :
    lexLt (snapName 3) (snapName 7) ∧ (99 : ℕ) = 99 :=
  ⟨C6_snapshot_names.2.1 7 (by decide) 3 (by decide),
   C6_snapshot_names.1 99 99 rfl⟩

lemma countP_logWriting_header (cfg : CaseConfig) (s : StepIn) (hOpen : s.openOk = true) :
    (logWriting cfg s).events.countP (isHeaderWrite cfg) = if s.i = 0 then 1 else 0 := by
  rcases logWriting_cases cfg s hOpen with ⟨_, heq⟩ | ⟨_, r, _, heq⟩ | ⟨_, _, heq⟩ <;>
    rw [heq] <;>
    simp [List.countP_append, countP_step_header, countP_abort_header]

lemma sum_range_header (N : ℕ) :
    ((List.range (N + 1)).map (fun k => if k = 0 then (1 : ℕ) else 0)).sum = 1 := by
  induction N with
  | zero => decide
  | succ N ih =>
    rw [List.range_succ, List.map_append, List.sum_append]
    simp [ih]

/-- Counterexample to C7 as stated: the claim fixes the header format to
`Level <L>, Oh <e>, We <e>, Oha <e>, De <e>, Ec <e>`, but the drop-impact run
log's header has only the fields `Level, Oh, Oha`
(`fprintf(fp, "Level %d, Oh %2.1e, Oha %2.1e\n", MAXlevel, Oh, Oha)`). -/
theorem C7_counterexample :
    dropImpactCfg.headerItems.map Prod.fst = ["Level", "Oh", "Oha"] ∧
    dropImpactCfg.headerItems.map Prod.fst ≠ ["Level", "Oh", "We", "Oha", "De", "Ec"] ∧
    Ev.fwrite dropImpactCfg.runLog (.header dropImpactCfg.headerItems)
      ∈ (logWriting dropImpactCfg ⟨0, 1, 0, 1, true⟩).events := by
  refine ⟨rfl, by decide, ?_⟩
  norm_num [logWriting, monitorDecision, stepRunLogEvents, dropImpactCfg]

/-- Claim C7 as amended: the run log is opened in overwrite mode at step 0
and append mode later; the header line carrying the run parameters —
`Level, Oh, We, Oha, De, Ec` for drop atomisation but only `Level, Oh, Oha`
for drop impact — is written exactly once per run, at step 0 (followed by a
column-title line), and every step appends exactly one record line
`<i> <dt> <t> <ke>`. -/
theorem C7_runlog_format (cfg : CaseConfig) (s : StepIn) (hOpen : s.openOk = true) :
    (logWriting cfg s).events.head?
        = some (.fopen cfg.runLog (if s.i = 0 then Mode.write else Mode.append)) ∧
    (logWriting cfg s).events.countP (isHeaderWrite cfg) = (if s.i = 0 then 1 else 0) ∧
    (logWriting cfg s).events.countP (isRecordWrite cfg) = 1 ∧
    Ev.fwrite cfg.runLog (.record s.i s.dt s.t s.ke) ∈ (logWriting cfg s).events ∧
    (s.i = 0 → Ev.fwrite cfg.runLog (.header cfg.headerItems) ∈ (logWriting cfg s).events) ∧
    dropAtomCfg.headerItems.map Prod.fst = ["Level", "Oh", "We", "Oha", "De", "Ec"] ∧
    dropImpactCfg.headerItems.map Prod.fst = ["Level", "Oh", "Oha"] ∧
    ∀ (N : ℕ) (dts ts kes : ℕ → ℚ),
      ((List.range (N + 1)).map
        (fun k => (logWriting cfg ⟨k, dts k, ts k, kes k, true⟩).events.countP
          (isHeaderWrite cfg))).sum = 1 := by
  refine ⟨?_, countP_logWriting_header cfg s hOpen, ?_, ?_, ?_, rfl, rfl, ?_⟩
  · rcases logWriting_cases cfg s hOpen with ⟨_, heq⟩ | ⟨_, r, _, heq⟩ | ⟨_, _, heq⟩ <;>
      rw [heq] <;> simp [stepRunLogEvents]
  · rcases logWriting_cases cfg s hOpen with ⟨_, heq⟩ | ⟨_, r, _, heq⟩ | ⟨_, _, heq⟩ <;>
      rw [heq] <;>
      simp [List.countP_append, countP_step_record, countP_abort_record]
  · rcases logWriting_cases cfg s hOpen with ⟨_, heq⟩ | ⟨_, r, _, heq⟩ | ⟨_, _, heq⟩ <;>
      rw [heq] <;> simp [stepRunLogEvents]
  · intro h0
    rcases logWriting_cases cfg s hOpen with ⟨_, heq⟩ | ⟨_, r, _, heq⟩ | ⟨_, _, heq⟩ <;>
      rw [heq] <;> simp [stepRunLogEvents, h0]
  · intro N dts ts kes
    have hcong : ∀ k ∈ List.range (N + 1),
        (logWriting cfg ⟨k, dts k, ts k, kes k, true⟩).events.countP (isHeaderWrite cfg)
          = if k = 0 then (1 : ℕ) else 0 := by
      intro k _
      exact countP_logWriting_header cfg ⟨k, dts k, ts k, kes k, true⟩ rfl
    rw [List.map_congr_left hcong]
    exact sum_range_header N

/-- Witness for C7: at step 0 the atomisation run log gets exactly one header
line, at step 3 none, and each step exactly one record line. -/
theorem C7_runlog_format_witness :
    (logWriting dropAtomCfg ⟨0, 1, 0, 1, true⟩).events.countP (isHeaderWrite dropAtomCfg) = 1 ∧
    (logWriting dropAtomCfg ⟨3, 1, 1, 1, true⟩).events.countP (isHeaderWrite dropAtomCfg) = 0 ∧
    (logWriting dropAtomCfg ⟨3, 1, 1, 1, true⟩).events.countP (isRecordWrite dropAtomCfg) = 1 := by
  have T0 := C7_runlog_format dropAtomCfg ⟨0, 1, 0, 1, true⟩ rfl
  have T3 := C7_runlog_format dropAtomCfg ⟨3, 1, 1, 1, true⟩ rfl
  exact ⟨by simpa using T0.2.1, by simpa using T3.2.1, T3.2.2.1⟩

/-- The ordered field list the claim asserts for the wavelet call: volume
fraction first, then curvature, then the velocity components (the spec's
wording). -/
def claimedAdaptOrder2D : List FieldId := [.f, .kappa, .ux, .uy]

/-- Counterexample to C8 as stated: in `dropImpact.c` the `adapt_wavelet`
field list is `{f, u.x, u.y, KAPPA}` — curvature comes after the velocity
components, not between the volume fraction and the velocities. -/
theorem C8_counterexample :
    impactAdaptCall.pairs.map Prod.fst = [.f, .ux, .uy, .kappa] ∧
    impactAdaptCall.pairs.map Prod.fst ≠ claimedAdaptOrder2D := by
  exact ⟨rfl, by decide⟩

/-- Claim C8 as amended: the refinement trigger runs at every step with no
time gating, recomputes the curvature from the volume fraction, and invokes
the wavelet-adaptation primitive exactly once per step with the configured
maximum level and a minimum-cells-per-block parameter of 4 in both cases;
the ordered (field, tolerance) list is `f, KAPPA, u.x, u.y, u.z` for drop
atomisation but `f, u.x, u.y, KAPPA` for drop impact. -/
theorem C8_adapt_call :
    (∀ i : ℕ, adaptAtom i = [.computeCurvature .f .kappa, .adaptWavelet atomAdaptCall] ∧
        (adaptAtom i).countP isWaveletCall = 1) ∧
    (∀ i : ℕ, adaptImpact i = [.computeCurvature .f .kappa, .adaptWavelet impactAdaptCall] ∧
        (adaptImpact i).countP isWaveletCall = 1) ∧
    atomAdaptCall.pairs.map Prod.fst = [.f, .kappa, .ux, .uy, .uz] ∧
    impactAdaptCall.pairs.map Prod.fst = [.f, .ux, .uy, .kappa] ∧
    atomAdaptCall.pairs.map Prod.snd
      = [atomisation.fErr, atomisation.KErr, atomisation.VelErr,
         atomisation.VelErr, atomisation.VelErr] ∧
    impactAdaptCall.pairs.map Prod.snd
      = [impact.fErr, impact.VelErr, impact.VelErr, impact.KErr] ∧
    atomAdaptCall.maxLevel = 7 ∧ impactAdaptCall.maxLevel = 6 ∧
    atomAdaptCall.minBlock = 4 ∧ impactAdaptCall.minBlock = 4 :=
  ⟨fun _ => ⟨rfl, rfl⟩, fun _ => ⟨rfl, rfl⟩, rfl, rfl, rfl, rfl, rfl, rfl, rfl, rfl⟩

/-- Counterexample to C9 as stated: a failed run-log open makes the event
return 1, exactly the outcome of the graceful STOP_ABORT path — the two are
not distinguishable by the halt signal. -/
theorem C9_counterexample :
    (logWriting dropImpactCfg ⟨5, 1, 1, 1, false⟩).outcome = .halt ∧
    (logWriting dropImpactCfg ⟨11, 1, 1, 200, true⟩).outcome = .halt ∧
    (logWriting dropImpactCfg ⟨5, 1, 1, 1, false⟩).outcome
      = (logWriting dropImpactCfg ⟨11, 1, 1, 200, true⟩).outcome := by
  norm_num [logWriting, monitorDecision, dropImpactCfg]

/-- Claim C9 as amended: when the run log cannot be opened the step stops
immediately — nothing is written, no record is appended — and the event
returns the non-zero stop signal; but that signal is the same `return 1`
(`Outcome.halt`) used by the graceful STOP_ABORT path, so the two exits are
not distinguishable (only the negative-energy assertion aborts the process
distinguishably). -/
theorem C9_openfail_behavior (cfg : CaseConfig) (s : StepIn) (hOpen : s.openOk = false) :
    (logWriting cfg s).events
        = [.fopen cfg.runLog (if s.i = 0 then Mode.write else Mode.append)] ∧
    (logWriting cfg s).outcome = .halt ∧
    (logWriting cfg s).events.countP (isRecordWrite cfg) = 0 ∧
    (∀ (s' : StepIn) (r : Reason), s'.openOk = true → ¬ s'.ke ≤ -1e-10 →
      monitorDecision cfg.upper cfg.lower s'.i s'.ke = .STOP_ABORT r →
      (logWriting cfg s').outcome = (logWriting cfg s).outcome) := by
  have hmain : logWriting cfg s
      = { events := [.fopen cfg.runLog (if s.i = 0 then Mode.write else Mode.append)],
          outcome := .halt } := by
    unfold logWriting
    rw [hOpen, if_pos rfl]
  refine ⟨by rw [hmain], by rw [hmain], ?_, ?_⟩
  · rw [hmain]
    simp [List.countP_cons, isRecordWrite]
  · intro s' r hOpen' hassert' hd'
    rcases logWriting_cases cfg s' hOpen' with ⟨hke, _⟩ | ⟨_, r', _, heq⟩ | ⟨_, hcont, _⟩
    · exact absurd hke hassert'
    · rw [heq, hmain]
    · rw [hcont] at hd'
      exact absurd hd' (by simp)

/-- Witness for C9 at a concrete failed open: atomisation step 5 with
`openOk = false`. -/
theorem C9_openfail_behavior_witness :
    (logWriting dropAtomCfg ⟨5, 1, 1, 1, false⟩).outcome = .halt ∧
    (logWriting dropAtomCfg ⟨5, 1, 1, 1, false⟩).events.countP (isRecordWrite dropAtomCfg)
        = 0 := by
  have T := C9_openfail_behavior dropAtomCfg ⟨5, 1, 1, 1, false⟩ rfl
  exact ⟨T.2.1, T.2.2.1⟩

/-- Claim C10: whenever both phase densities are positive, the cell sizes are
nonnegative (a mesh invariant the claim's "nonnegative cell measure" wording
presupposes) and, in the drop-impact case, the radial coordinate `y` is
nonnegative over the domain, every term of the kinetic-energy reduction is
nonnegative, hence the computed kinetic energy is `≥ 0`, strictly above
`-1e-10`, and the assertion `ke > -1e-10` can never fail. -/
theorem C10_energy_nonneg (r1 r2 : ℚ) (h1 : 0 < r1) (h2 : 0 < r2)
    (cellsA : List Cell3) (hdel : ∀ c ∈ cellsA, 0 ≤ c.delta)
    (R1 R2 : ℝ) (hR1 : 0 < R1) (hR2 : 0 < R2)
    (cellsI : List Cell2) (hy : ∀ c ∈ cellsI, 0 ≤ c.y) :
    (∀ c ∈ cellsA, 0 ≤ 0.5 * rho r1 r2 c.f * normSq3 c * cellMeasure3 c) ∧
    0 ≤ keAtom r1 r2 cellsA ∧ -1e-10 < keAtom r1 r2 cellsA ∧
    (∀ c ∈ cellsI, 0 ≤ 0.5 * rho R1 R2 c.f * normSq2 c * cellMeasureAxi c) ∧
    0 ≤ keImpact R1 R2 cellsI ∧ -1e-10 < keImpact R1 R2 cellsI ∧
    (∀ (cfg : CaseConfig) (s : StepIn), 0 ≤ s.ke →
      (logWriting cfg s).outcome ≠ .assertFail) := by
  have htermA : ∀ c ∈ cellsA, 0 ≤ 0.5 * rho r1 r2 c.f * normSq3 c * cellMeasure3 c := by
    intro c hc
    have hn : 0 ≤ normSq3 c := by
      unfold normSq3 sq
      exact add_nonneg (add_nonneg (mul_self_nonneg _) (mul_self_nonneg _)) (mul_self_nonneg _)
    have hm : 0 ≤ cellMeasure3 c := by
      unfold cellMeasure3
      exact pow_nonneg (hdel c hc) 3
    exact mul_nonneg (mul_nonneg (mul_nonneg (by norm_num) (rho_pos h1 h2 c.f).le) hn) hm
  have htermI : ∀ c ∈ cellsI, 0 ≤ 0.5 * rho R1 R2 c.f * normSq2 c * cellMeasureAxi c := by
    intro c hc
    have hn : 0 ≤ normSq2 c := by
      unfold normSq2 sq
      exact add_nonneg (mul_self_nonneg _) (mul_self_nonneg _)
    have hm : 0 ≤ cellMeasureAxi c := by
      unfold cellMeasureAxi sq
      have h2pi : 0 ≤ (2 : ℝ) * Real.pi := by positivity
      exact mul_nonneg (mul_nonneg h2pi (hy c hc)) (mul_self_nonneg c.delta)
    exact mul_nonneg (mul_nonneg (mul_nonneg (by norm_num) (rho_pos hR1 hR2 c.f).le) hn) hm
  have hkA : 0 ≤ keAtom r1 r2 cellsA := by
    rw [keAtom_eq_sum]
    refine List.sum_nonneg ?_
    intro x hx
    obtain ⟨c, hc, rfl⟩ := List.mem_map.mp hx
    exact htermA c hc
  have hkI : 0 ≤ keImpact R1 R2 cellsI := by
    rw [keImpact_eq_sum]
    refine List.sum_nonneg ?_
    intro x hx
    obtain ⟨c, hc, rfl⟩ := List.mem_map.mp hx
    exact htermI c hc
  refine ⟨htermA, hkA, ?_, htermI, hkI, ?_, ?_⟩
  · have : (-1e-10 : ℚ) < 0 := by norm_num
    linarith
  · have : (-1e-10 : ℝ) < 0 := by norm_num
    linarith
  · intro cfg s hke
    by_cases ho : s.openOk = true
    · rcases logWriting_cases cfg s ho with ⟨hke2, _⟩ | ⟨_, r, _, heq⟩ | ⟨_, _, heq⟩
      · exfalso
        have : (-1e-10 : ℚ) < 0 := by norm_num
        linarith
      · rw [heq]
        simp
      · rw [heq]
        simp
    · have ho' : s.openOk = false := by
        revert ho
        cases s.openOk <;> simp
      unfold logWriting
      rw [ho', if_pos rfl]
      simp

/-- Witness for C10 on concrete one-cell meshes with the case densities
(`rho1 = 830, rho2 = 1` and `rho1 = 1, rho2 = 1e-3`). -/
theorem C10_energy_nonneg_witness :
    0 ≤ keAtom 830 1 [⟨1, 1, 1, 1, 1⟩] ∧
    -1e-10 < keImpact 1 (1 / 1000) [⟨1, 1, 1, 2, 1⟩] ∧
    (logWriting dropAtomCfg ⟨5, 1, 1, 0, true⟩).outcome ≠ .assertFail := by
  have T := C10_energy_nonneg 830 1 (by norm_num) (by norm_num) [⟨1, 1, 1, 1, 1⟩]
    (by
      intro c hc
      rw [List.mem_singleton] at hc
      subst hc
      norm_num)
    1 (1 / 1000) (by norm_num) (by norm_num) [⟨1, 1, 1, 2, 1⟩]
    (by
      intro c hc
      rw [List.mem_singleton] at hc
      subst hc
      norm_num)
  exact ⟨T.2.1, T.2.2.2.2.2.1, T.2.2.2.2.2.2 dropAtomCfg ⟨5, 1, 1, 0, true⟩ le_rfl⟩

end VE
